import Mathlib

/-!
Verification of the Business-Analytics-Reports analytics pipeline.

The repository computes financial metrics over a daily OHLCV price series
using pandas. This file is a shallow embedding of the numeric core:

* prices and derived quantities are rationals (`ℚ`); the floating-point
  arithmetic of the source is modelled exactly, with `Option ℚ` standing for
  float `NaN` ("missing") entries;
* a pandas `Series` is a `List ℚ` (no missing entries) or `List (Option ℚ)`;
* a pandas `DataFrame` is the structure `Frame` below: the six OHLCV columns
  plus the derived columns the aggregators may add in place;
* quantities whose float computation is irrational (square roots, real
  powers) live in `ℝ` via `Real.sqrt` / real exponentiation;
* fallible loading returns `Option` (`none` models the caught exception /
  `None` return of `load_data` in `app.py`).

Sources embedded: `src/app.py` (web-app analytics, the canonical variant),
`src/comprehensive_analytics.py` (`predictive_analytics`), and the shared
loader logic duplicated across `app.py`, `comprehensive_analytics.py` and
`generate_reports.py`.
-/

/-- Tail of pandas `Series.pct_change` on a NaN-free close series: each
entry is `close[t] / close[t-1] - 1`, `prev` being the previous close. -/
def pctChangeAux (prev : ℚ) : List ℚ → List (Option ℚ)
  | [] => []
  | x :: xs => some (x / prev - 1) :: pctChangeAux x xs

/-- pandas `Series.pct_change()` (`df['Close'].pct_change()`): the first
entry is `NaN` (`none`), entry `t ≥ 1` is `close[t]/close[t-1] - 1`. -/
def pctChange : List ℚ → List (Option ℚ)
  | [] => []
  | x :: xs => none :: pctChangeAux x xs

/-- pandas `Series.dropna()`: keep the defined entries, in order. -/
def dropna (xs : List (Option ℚ)) : List ℚ := xs.filterMap id

/-- Running products with accumulator `acc`: entry `t` is
`acc * x[0] * ... * x[t]`. -/
def cumprodAux (acc : ℚ) : List ℚ → List ℚ
  | [] => []
  | x :: xs => (acc * x) :: cumprodAux (acc * x) xs

/-- pandas `Series.cumprod()` on a NaN-free series. -/
def cumprod (xs : List ℚ) : List ℚ := cumprodAux 1 xs

/-- Running products over a series with missing entries, skipping them:
a `none` entry stays `none` in the output and does not enter the product.
This is pandas `Series.cumprod()` with its default `skipna=True`. -/
def cumprodSkipAux (acc : ℚ) : List (Option ℚ) → List (Option ℚ)
  | [] => []
  | none :: xs => none :: cumprodSkipAux acc xs
  | some x :: xs => some (acc * x) :: cumprodSkipAux (acc * x) xs

/-- pandas `Series.cumprod()` (default `skipna=True`) on a series with
missing entries. -/
def cumprodSkip (xs : List (Option ℚ)) : List (Option ℚ) := cumprodSkipAux 1 xs

/-- The `Cumulative_Return` column of `performance_analytics`
(`df['Cumulative_Return'] = (1 + df['Daily_Return']).cumprod()` in
`app.py`, identically in `comprehensive_analytics.py` and
`generate_reports.py`): add `1` elementwise to the daily returns (missing
entries stay missing) and take the skipping cumulative product. -/
def cumulativeReturn (close : List ℚ) : List (Option ℚ) :=
  cumprodSkip ((pctChange close).map (Option.map (fun r => 1 + r)))

/-- `total_return = df['Cumulative_Return'].iloc[-1] - 1` in
`performance_analytics`: missing when the last cumulative entry is
missing. -/
def total_return (close : List ℚ) : Option ℚ :=
  ((cumulativeReturn close).getLast?.join).map (fun c => c - 1)

/-- Sum of the trailing window of `w` entries ending at index `t`:
`xs[t+1-w] + ... + xs[t]`. -/
def windowSum (xs : List ℚ) (t w : ℕ) : ℚ := ((xs.take (t + 1)).drop (t + 1 - w)).sum

/-- pandas `Series.rolling(window=w).mean()` on a NaN-free series: entry `t`
is the mean of the trailing `w` entries when `t + 1 ≥ w`, missing before. -/
def rollingMean (w : ℕ) (xs : List ℚ) : List (Option ℚ) :=
  (List.range xs.length).map
    (fun t => if w ≤ t + 1 then some (windowSum xs t w / (w : ℚ)) else none)

/-- Tail of pandas `Series.diff()`: each entry is `x[t] - x[t-1]`. -/
def diffAux (prev : ℚ) : List ℚ → List (Option ℚ)
  | [] => []
  | x :: xs => some (x - prev) :: diffAux x xs

/-- pandas `Series.diff()` (`delta = data.diff()` in `calculate_rsi`): first
entry missing, entry `t ≥ 1` is `data[t] - data[t-1]`. -/
def seriesDiff : List ℚ → List (Option ℚ)
  | [] => []
  | x :: xs => none :: diffAux x xs

/-- `delta.where(delta > 0, 0)` in `calculate_rsi`: keep positive price
changes, replace everything else — including the leading `NaN`, for which
the float comparison `NaN > 0` is false — by `0`. -/
def gainSeries (data : List ℚ) : List ℚ :=
  (seriesDiff data).map (fun d => match d with
    | some x => if 0 < x then x else 0
    | none => 0)

/-- `(-delta.where(delta < 0, 0))` in `calculate_rsi`: magnitude of negative
price changes, `0` elsewhere (the leading `NaN` compares false, hence `0`). -/
def lossSeries (data : List ℚ) : List ℚ :=
  (seriesDiff data).map (fun d => match d with
    | some x => if x < 0 then -x else 0
    | none => 0)

/-- The value `100 - 100 / (1 + gain / loss)` of `calculate_rsi`, with the
float division semantics made explicit: when `loss = 0` and `gain ≠ 0` the
float quotient `rs` is infinite and `100 - 100/(1 + rs)` evaluates to `100`;
when `loss = 0` and `gain = 0` the quotient is `NaN` and the RSI entry is
missing. -/
def rsiVal (gain loss : ℚ) : Option ℚ :=
  if loss = 0 then (if gain = 0 then none else some 100)
  else some (100 - 100 / (1 + gain / loss))

/-- `calculate_rsi(data, window)` from `app.py` (identical in
`comprehensive_analytics.py` and `generate_reports.py`): 14-period rolling
means of clamped gains and losses combined through `rsiVal`; the entry is
missing where either rolling mean is missing. -/
def calculate_rsi (data : List ℚ) (window : ℕ) : List (Option ℚ) :=
  List.zipWith (fun g l => match g, l with
    | some gv, some lv => rsiVal gv lv
    | _, _ => none)
    (rollingMean window (gainSeries data)) (rollingMean window (lossSeries data))

/-- Float comparison `a < b` with pandas/NumPy `NaN` semantics: any
comparison against `NaN` is false. -/
def oLT (a b : Option ℚ) : Bool :=
  match a, b with
  | some x, some y => decide (x < y)
  | _, _ => false

/-- Float comparison `a ≤ b`; false when either side is `NaN`. -/
def oLE (a b : Option ℚ) : Bool :=
  match a, b with
  | some x, some y => decide (x ≤ y)
  | _, _ => false

/-- Float comparison `a > b`; false when either side is `NaN`. -/
def oGT (a b : Option ℚ) : Bool := oLT b a

/-- Float comparison `a ≥ b`; false when either side is `NaN`. -/
def oGE (a b : Option ℚ) : Bool := oLE b a

/-- `predictive_analytics(df)` from `comprehensive_analytics.py` (same
classification in `generate_reports.py`), reduced to the classification it
prints: compare `SMA_20` and `SMA_50` at the last record (`iloc[-1]`) and
second-to-last record (`iloc[-2]`) with float `NaN`-is-false comparison
semantics. -/
def predictive_analytics (close : List ℚ) : String :=
  let n := close.length
  let sma20 := rollingMean 20 close
  let sma50 := rollingMean 50 close
  let s20 := sma20.getD (n - 1) none
  let s50 := sma50.getD (n - 1) none
  let p20 := sma20.getD (n - 2) none
  let p50 := sma50.getD (n - 2) none
  if oGT s20 s50 && oLE p20 p50 then "GOLDEN CROSS - Bullish signal"
  else if oLT s20 s50 && oGE p20 p50 then "DEATH CROSS - Bearish signal"
  else if oGT s20 s50 then "Bullish trend continuation"
  else "Bearish trend continuation"

/-- Running maxima continuing from an already-seen maximum `m`. -/
def runningMaxAux (m : ℚ) : List ℚ → List ℚ
  | [] => []
  | x :: xs => max m x :: runningMaxAux (max m x) xs

/-- pandas `Series.expanding().max()` on a NaN-free series: entry `t` is the
maximum of the entries up to and including `t`. -/
def runningMax : List ℚ → List ℚ
  | [] => []
  | x :: xs => x :: runningMaxAux x xs

/-- Elementwise traversal for the per-column parses of the loader that abort
the whole load on the first failure (the behaviour of `pd.to_datetime` over
a column with an unparseable entry). -/
def mapMOption (f : α → Option β) : List α → Option (List β)
  | [] => some []
  | x :: xs =>
    match f x, mapMOption f xs with
    | some y, some ys => some (y :: ys)
    | _, _ => none

/-- `returns = df['Close'].pct_change().dropna()` in `risk_analytics`
(`app.py`). -/
def risk_returns (close : List ℚ) : List ℚ := dropna (pctChange close)

/-- `cumulative = (1 + returns).cumprod()` in `risk_analytics`. -/
def risk_cumulative (close : List ℚ) : List ℚ :=
  cumprod ((risk_returns close).map (fun r => 1 + r))

/-- `drawdown = (cumulative - running_max) / running_max` in
`risk_analytics`, where `running_max = cumulative.expanding().max()`. -/
def drawdownSeries (close : List ℚ) : List ℚ :=
  List.zipWith (fun c m => (c - m) / m)
    (risk_cumulative close) (runningMax (risk_cumulative close))

/-- `max_drawdown = drawdown.min()` in `risk_analytics`; missing (`NaN`)
when the series is empty. -/
def max_drawdown (close : List ℚ) : Option ℚ := (drawdownSeries close).min?

/-- `excess_returns = returns - risk_free_rate/252` in `risk_analytics`. -/
def excess_returns (riskFreeRate : ℚ) (returns : List ℚ) : List ℚ :=
  returns.map (fun r => r - riskFreeRate / 252)

/-- pandas `Series.mean()`: `NaN` on an empty series. -/
def seriesMean (xs : List ℚ) : Option ℚ :=
  if xs = [] then none else some (xs.sum / (xs.length : ℚ))

/-- Sample variance with pandas' default `ddof=1`, the square of what
`Series.std()` computes (guarded by `seriesStd` below for the `n < 2`
case where pandas yields `NaN`). -/
def varSample (xs : List ℚ) : ℚ :=
  ((xs.map (fun x => (x - xs.sum / (xs.length : ℚ)) ^ 2)).sum) / ((xs.length - 1 : ℕ) : ℚ)

/-- pandas `Series.std()` (sample standard deviation, `ddof=1`): `NaN` when
fewer than two entries, otherwise the square root of the sample variance. -/
noncomputable def seriesStd (xs : List ℚ) : Option ℝ :=
  if xs.length < 2 then none else some (Real.sqrt ((varSample xs : ℚ) : ℝ))

/-- The Sharpe-ratio formula of the spec,
`√252 × mean(dailyReturn − riskFreeRate/252) / std(dailyReturn)`, with the
risk-free rate as a parameter — this is what the spec calls configurable
via `RISK_FREE_RATE` (`config.py`, default `0.02`). Missing when the mean
or the standard deviation is missing. -/
noncomputable def sharpe_of (riskFreeRate : ℚ) (returns : List ℚ) : Option ℝ :=
  match seriesMean (excess_returns riskFreeRate returns), seriesStd returns with
  | some m, some s => some (Real.sqrt 252 * (m : ℝ) / s)
  | _, _ => none

/-- The Sharpe ratio `risk_analytics` (`app.py`) actually reports:
`risk_free_rate = 0.02` is a local hardcoded constant, so the formula is
instantiated at `2/100` regardless of any configuration. -/
noncomputable def risk_sharpe (close : List ℚ) : Option ℝ :=
  sharpe_of (2 / 100) (risk_returns close)

/-- `np.percentile(xs, p)` with NumPy's default linear interpolation,
used for `var_95 = np.percentile(returns, 5)`; missing on an empty list
(where NumPy raises). -/
def percentile (p : ℚ) (xs : List ℚ) : Option ℚ :=
  if xs = [] then none else
  some (
    let s := xs.mergeSort (fun a b => decide (a ≤ b))
    let pos : ℚ := p / 100 * ((xs.length : ℚ) - 1)
    let lo : ℕ := (Int.floor pos).toNat
    let hi : ℕ := (Int.ceil pos).toNat
    s.getD lo 0 + (pos - (lo : ℚ)) * (s.getD hi 0 - s.getD lo 0))

/-- The date-indexed frame `load_data` produces and the aggregators share:
the six OHLCV columns, plus the derived columns that the aggregators of
`app.py` assign in place (`df['Daily_Return'] = ...` and so on), `none`
until assigned.  The date index itself carries no numeric content and is
not modelled. -/
structure Frame where
  Open : List ℚ
  High : List ℚ
  Low : List ℚ
  Close : List ℚ
  AdjClose : List ℚ
  Volume : List ℚ
  Daily_Return : Option (List (Option ℚ))
  Cumulative_Return : Option (List (Option ℚ))
  SMA_20 : Option (List (Option ℚ))
  SMA_50 : Option (List (Option ℚ))
  RSI : Option (List (Option ℚ))
deriving DecidableEq

/-- The six OHLCV columns of a frame — the PriceSeries proper, as opposed
to the derived columns. -/
def baseOf (df : Frame) : List ℚ × List ℚ × List ℚ × List ℚ × List ℚ × List ℚ :=
  (df.Open, df.High, df.Low, df.Close, df.AdjClose, df.Volume)

/-- The numeric content of the `descriptive_analytics` report of `app.py`
(the date strings of `data_period` carry no numeric content and are not
modelled). -/
structure DescriptiveReport where
  total_trading_days : ℕ
  average_daily_volume : Option ℚ
  low_min : Option ℚ
  high_max : Option ℚ
  average_closing_price : Option ℚ
  current_price : Option ℚ
deriving DecidableEq

/-- `descriptive_analytics(df)` from `app.py`: pure read of the frame. -/
def descriptive_analytics (df : Frame) : Frame × DescriptiveReport :=
  (df, ⟨df.Close.length, seriesMean df.Volume, df.Low.min?, df.High.max?,
        seriesMean df.Close, df.Close.getLast?⟩)

/-- The numeric content of the `performance_analytics` report of `app.py`
(`current_volatility` repeats `annualized_volatility` verbatim in the
source and is not duplicated here). -/
structure PerformanceReport where
  total_return : Option ℚ
  annualized_return : Option ℝ
  annualized_volatility : Option ℝ

/-- `performance_analytics(df)` from `app.py`: assigns `Daily_Return` and
`Cumulative_Return` columns on the frame in place, then reports
`total_return = cumulative.iloc[-1] - 1`,
`annual_return = cumulative.iloc[-1] ** (252/len(df)) - 1` and
`volatility = daily.std() * √252` (pandas `std` skips the missing head). -/
noncomputable def performance_analytics (df : Frame) : Frame × PerformanceReport :=
  let daily := pctChange df.Close
  let cumulative := cumulativeReturn df.Close
  let last := cumulative.getLast?.join
  ({ df with Daily_Return := some daily, Cumulative_Return := some cumulative },
   ⟨last.map (fun c => c - 1),
    last.map (fun c => (c : ℝ) ^ ((252 : ℝ) / (df.Close.length : ℝ)) - 1),
    (seriesStd (dropna daily)).map (fun s => s * Real.sqrt 252)⟩)

/-- The numeric and signal content of the `technical_analytics` report of
`app.py` (`signal_color` is `green` exactly when the signal is `BULLISH`,
`red` otherwise). -/
structure TechnicalReport where
  current_price : Option ℚ
  sma_20 : Option ℚ
  sma_50 : Option ℚ
  rsi : Option ℚ
  signal : String
  signal_color : String
deriving DecidableEq

/-- `technical_analytics(df)` from `app.py`: assigns `SMA_20`, `SMA_50` and
`RSI` columns in place, reads their last entries and signals `BULLISH`
exactly when the float comparison `close.iloc[-1] > sma50.iloc[-1]` holds
(false when either is `NaN`). -/
def technical_analytics (df : Frame) : Frame × TechnicalReport :=
  let sma20 := rollingMean 20 df.Close
  let sma50 := rollingMean 50 df.Close
  let rsi := calculate_rsi df.Close 14
  let price := df.Close.getLast?
  let s50 := sma50.getLast?.join
  let signal := if oGT price s50 then "BULLISH" else "BEARISH"
  ({ df with SMA_20 := some sma20, SMA_50 := some sma50, RSI := some rsi },
   ⟨price, sma20.getLast?.join, s50, rsi.getLast?.join, signal,
    if signal = "BULLISH" then "green" else "red"⟩)

/-- The numeric content of the `risk_analytics` report of `app.py`. -/
structure RiskReport where
  var_95 : Option ℚ
  max_drawdown : Option ℚ
  sharpe_ratio : Option ℝ
  risk_level : String

/-- `risk_analytics(df)` from `app.py`: recomputes the returns from the
`Close` column locally (no frame mutation), then reports the 5th-percentile
VaR, the minimum of the drawdown series, the Sharpe ratio with the local
hardcoded `risk_free_rate = 0.02`, and the drawdown-based risk level
(`NaN` comparisons are false, so an empty series grades `Low`). -/
noncomputable def risk_analytics (df : Frame) : Frame × RiskReport :=
  (df,
   ⟨percentile 5 (risk_returns df.Close),
    max_drawdown df.Close,
    risk_sharpe df.Close,
    match max_drawdown df.Close with
    | none => "Low"
    | some m =>
      if (1 : ℚ) / 2 < |m| then "High"
      else if (1 : ℚ) / 5 < |m| then "Medium" else "Low"⟩)

/-- The frame-mutation part of `descriptive_analytics` (the identity). -/
def descStep (df : Frame) : Frame := (descriptive_analytics df).1

/-- The frame-mutation part of `performance_analytics`. -/
noncomputable def perfStep (df : Frame) : Frame := (performance_analytics df).1

/-- The frame-mutation part of `technical_analytics`. -/
def techStep (df : Frame) : Frame := (technical_analytics df).1

/-- The frame-mutation part of `risk_analytics` (the identity). -/
noncomputable def riskStep (df : Frame) : Frame := (risk_analytics df).1

/-- Split a character list at every occurrence of the separator `c`; this
is `str.split(',')` / `String.split` at the character level (the level at
which concrete inputs evaluate). -/
def splitOnChar (c : Char) (s : List Char) : List (List Char) :=
  match s with
  | [] => [[]]
  | x :: xs =>
    let r := splitOnChar c xs
    if x = c then [] :: r
    else match r with
      | [] => [[x]]
      | y :: ys => (x :: y) :: ys

/-- Value of a digit string read in base ten. -/
def digitsVal (s : List Char) : ℕ :=
  s.foldl (fun n c => 10 * n + (c.toNat - '0'.toNat)) 0

/-- Read an unsigned decimal numeral; `none` when empty or not all digits. -/
def charsToNat? (s : List Char) : Option ℕ :=
  if s ≠ [] ∧ s.all (fun c => c.isDigit) then some (digitsVal s) else none

/-- Gregorian leap-year rule, as used by `pd.to_datetime`'s calendar
validation. -/
def isLeapYear (y : ℕ) : Bool :=
  (decide (y % 4 = 0) && decide (y % 100 ≠ 0)) || decide (y % 400 = 0)

/-- Number of days of month `m` in year `y`. -/
def daysInMonth (y m : ℕ) : ℕ :=
  if m = 2 then (if isLeapYear y then 29 else 28)
  else if m = 4 ∨ m = 6 ∨ m = 9 ∨ m = 11 then 30
  else 31

/-- Lexicographic order on `(year, month, day)` triples. -/
def tripleLE : ℕ × ℕ × ℕ → ℕ × ℕ × ℕ → Bool
  | (y1, m1, d1), (y2, m2, d2) =>
    decide (y1 < y2) ||
      (decide (y1 = y2) &&
        (decide (m1 < m2) || (decide (m1 = m2) && decide (d1 ≤ d2))))

/-- Validity check of `pd.to_datetime` on a `(year, month, day)` triple:
the month and day must exist on the Gregorian calendar of that year
(`2024-02-31` raises `day is out of range for month`), and the date must
fit in a nanosecond `pd.Timestamp`, whose bounds confine midnight dates to
`1677-09-22 .. 2262-04-11` (outside them `to_datetime` raises
`OutOfBoundsDatetime`). -/
def validDate (y m d : ℕ) : Bool :=
  decide (1 ≤ m) && decide (m ≤ 12) && decide (1 ≤ d) &&
    decide (d ≤ daysInMonth y m) &&
    tripleLE (1677, 9, 22) (y, m, d) && tripleLE (y, m, d) (2262, 4, 11)

/-- Modelled date parser for `pd.to_datetime` restricted to the
`YYYY-MM-DD` dates the data file carries: `none` — the situation in which
`pd.to_datetime` raises and the whole load fails — when the field is not a
dash-separated numeric date that passes `validDate` (calendar-valid and
within `pd.Timestamp` bounds). -/
def parseDate (s : List Char) : Option (ℕ × ℕ × ℕ) :=
  match (splitOnChar '-' s).map charsToNat? with
  | [some y, some m, some d] =>
    if validDate y m d then some (y, m, d) else none
  | _ => none

/-- Optional leading sign of a numeric cell, as accepted by
`pd.to_numeric`. -/
def splitSign (s : List Char) : ℚ × List Char :=
  match s with
  | '-' :: rest => (-1, rest)
  | '+' :: rest => (1, rest)
  | _ => (1, s)

/-- Split a numeric cell at its exponent marker `e`/`E`, when present. -/
def splitExp (s : List Char) : List Char × Option (List Char) :=
  match s.findIdx? (fun c => c = 'e' || c = 'E') with
  | none => (s, none)
  | some i => (s.take i, some (s.drop (i + 1)))

/-- Mantissa of a numeric cell: digits with an optional decimal point,
with at least one digit overall (`1`, `1.5`, `1.`, `.5`; not `.` or
empty). -/
def parseMantissa (s : List Char) : Option ℚ :=
  match splitOnChar '.' s with
  | [i] => (charsToNat? i).map (fun n => (n : ℚ))
  | [i, f] =>
    if (i ≠ [] ∨ f ≠ []) ∧ i.all (fun c => c.isDigit) ∧ f.all (fun c => c.isDigit) then
      some ((digitsVal i : ℚ) + (digitsVal f : ℚ) / 10 ^ f.length)
    else none
  | _ => none

/-- Optionally signed exponent digits of a numeric cell. -/
def parseExp (s : List Char) : Option ℤ :=
  match s with
  | '-' :: rest => (charsToNat? rest).map (fun n => -(n : ℤ))
  | '+' :: rest => (charsToNat? rest).map (fun n => (n : ℤ))
  | _ => (charsToNat? s).map (fun n => (n : ℤ))

/-- Modelled numeric parser for `pd.to_numeric(..., errors='coerce')`:
surrounding whitespace is stripped, then an optional sign, a decimal
mantissa and an optional `e`/`E` exponent are read (so `1e5`, `+1`,
`" 2.5 "`, `.5`, `1.5E-3` all parse); any other shape coerces to missing
(`none`) rather than failing.  The decimal value is kept as an exact
rational, consistently with the file-wide idealisation of floats as `ℚ`;
the special infinity spellings (`inf`/`Infinity`), whose float values lie
outside every rational model, and `nan` are treated as missing. -/
def parseNumeric (s : List Char) : Option ℚ :=
  let t := ((s.dropWhile Char.isWhitespace).reverse.dropWhile Char.isWhitespace).reverse
  let (sgn, body) := splitSign t
  let (mant, expPart) := splitExp body
  match parseMantissa mant, expPart with
  | some m, none => some (sgn * m)
  | some m, some es =>
    match parseExp es with
    | some k => some (sgn * m * (10 : ℚ) ^ k)
    | none => none
  | none, _ => none

/-- One parsed record of the loaded PriceSeries: a (validly parsed) date
and the six numeric fields, each possibly missing after coercion. -/
structure Row where
  date : ℕ × ℕ × ℕ
  Open : Option ℚ
  High : Option ℚ
  Low : Option ℚ
  Close : Option ℚ
  AdjClose : Option ℚ
  Volume : Option ℚ
deriving DecidableEq

/-- Parse the seven comma-separated fields of a row: the date must parse
(else the whole load fails), the six numeric fields coerce to missing on
failure (fields absent after the split also become missing, as the
`expand=True` split pads short rows with `None`). -/
def parseFields (fs : List (List Char)) : Option Row :=
  (parseDate (fs.getD 0 [])).map (fun d =>
    ⟨d, (fs.get? 1).bind parseNumeric, (fs.get? 2).bind parseNumeric,
     (fs.get? 3).bind parseNumeric, (fs.get? 4).bind parseNumeric,
     (fs.get? 5).bind parseNumeric, (fs.get? 6).bind parseNumeric⟩)

/-- `load_data` as duplicated across `app.py`, `comprehensive_analytics.py`
and `generate_reports.py`.  The source is `none` when the file is
unreadable (`pd.read_excel` raises).  Each row is one comma-delimited text
cell; `str.split(',', expand=True)` produces as many columns as the longest
row, so the subsequent assignment of the seven column names succeeds
exactly when that maximum is `7` (an empty source has no columns at all and
`df.iloc[:, 0]` raises).  `pd.to_datetime` aborts the load on the first
unparseable date; `pd.to_numeric(errors='coerce')` turns unparseable
numeric cells into missing values and keeps the row. -/
def load_data (source : Option (List String)) : Option (List Row) :=
  source.bind (fun lines =>
    let rows := lines.map (fun l => splitOnChar ',' l.toList)
    if (rows.map List.length).foldr max 0 = 7 then mapMOption parseFields rows
    else none)

/-- Responses of the `/api/chart/<chart_type>` endpoint: a JSON object
carrying a chart reference, or a JSON error object. -/
inductive ChartResp
  | chart (chart_url : String)
  | err (msg : String)
deriving DecidableEq

/-- `create_price_chart` renders a matplotlib figure and returns its
base64-encoded PNG; the rendering has no decision logic and is modelled as
an opaque chart reference. -/
def create_price_chart (_df : Frame) : String := "price_chart"

/-- `create_volume_chart`, modelled as an opaque chart reference. -/
def create_volume_chart (_df : Frame) : String := "volume_chart"

/-- `create_returns_chart`, modelled as an opaque chart reference. -/
def create_returns_chart (_df : Frame) : String := "returns_chart"

/-- `create_risk_chart`, modelled as an opaque chart reference. -/
def create_risk_chart (_df : Frame) : String := "risk_chart"

/-- The `/api/chart/<chart_type>` route of `app.py`: 404 with a JSON error
when the data cannot be loaded, the requested chart with Flask's default
status 200 for the four known types, and 400 with a JSON error for any
other type. -/
def api_chart (df : Option Frame) (chart_type : String) : ℕ × ChartResp :=
  match df with
  | none => (404, ChartResp.err "Data not found")
  | some f =>
    if chart_type = "price" then (200, ChartResp.chart (create_price_chart f))
    else if chart_type = "volume" then (200, ChartResp.chart (create_volume_chart f))
    else if chart_type = "returns" then (200, ChartResp.chart (create_returns_chart f))
    else if chart_type = "risk" then (200, ChartResp.chart (create_risk_chart f))
    else (400, ChartResp.err "Invalid chart type")

/-! ### Supporting lemmas -/

/-- `pctChangeAux` preserves length. -/
theorem pctChangeAux_length (prev : ℚ) (xs : List ℚ) :
    (pctChangeAux prev xs).length = xs.length := by
  induction xs generalizing prev with
  | nil => rfl
  | cons x xs ih => simp [pctChangeAux, ih]

/-- `pctChange` preserves length. -/
theorem pctChange_length (xs : List ℚ) : (pctChange xs).length = xs.length := by
  cases xs with
  | nil => rfl
  | cons x xs => simp [pctChange, pctChangeAux_length]

/-- `cumprodSkipAux` preserves length. -/
theorem cumprodSkipAux_length (acc : ℚ) (xs : List (Option ℚ)) :
    (cumprodSkipAux acc xs).length = xs.length := by
  induction xs generalizing acc with
  | nil => rfl
  | cons x xs ih => cases x <;> simp [cumprodSkipAux, ih]

/-- The cumulative-return column has one entry per close record. -/
theorem cumulativeReturn_length (close : List ℚ) :
    (cumulativeReturn close).length = close.length := by
  simp [cumulativeReturn, cumprodSkip, cumprodSkipAux_length, pctChange_length]

/-- Members of a `zipWith` come from members of the two lists. -/
theorem mem_zipWith {α β γ : Type} {f : α → β → γ} :
    ∀ {as : List α} {bs : List β} {c : γ}, c ∈ List.zipWith f as bs →
      ∃ a b, a ∈ as ∧ b ∈ bs ∧ f a b = c := by
  intro as
  induction as with
  | nil => intro bs c h; simp at h
  | cons a as ih =>
    intro bs c h
    cases bs with
    | nil => simp at h
    | cons b bs =>
      rcases List.mem_cons.1 h with h | h
      · exact ⟨a, b, List.mem_cons_self a as, List.mem_cons_self b bs, h.symm⟩
      · obtain ⟨a', b', ha, hb, he⟩ := ih h
        exact ⟨a', b', List.mem_cons_of_mem a ha, List.mem_cons_of_mem b hb, he⟩

/-- Indexing a `zipWith`. -/
theorem get?_zipWith {α β γ : Type} {f : α → β → γ} :
    ∀ (as : List α) (bs : List β) (t : ℕ),
      (List.zipWith f as bs).get? t =
        match as.get? t, bs.get? t with
        | some a, some b => some (f a b)
        | _, _ => none := by
  intro as
  induction as with
  | nil => intro bs t; cases bs <;> cases t <;> rfl
  | cons a as ih =>
    intro bs t
    cases bs with
    | nil =>
      cases t with
      | zero => rfl
      | succ t => cases (a :: as).get? (t + 1) <;> rfl
    | cons b bs => cases t with
      | zero => rfl
      | succ t => simpa using ih bs t

/-- `List.getD` through `List.get?` (pandas `iloc` with a default). -/
theorem getD_eq_get?_getD {α : Type} :
    ∀ (l : List α) (n : ℕ) (d : α), l.getD n d = (l.get? n).getD d := by
  intro l
  induction l with
  | nil => intro n d; cases n <;> rfl
  | cons x xs ih =>
    intro n d
    cases n with
    | zero => rfl
    | succ n => simp [List.getD, ih]

/-! ### C3 — total return and the last cumulative return -/

/-- C3: for every close series with at least one valid record, the last
entry of the cumulative-return column equals the reported total return
plus one — `total_return` is defined as the last cumulative return minus
one, and the identity `cumulativeReturn[N-1] = total_return + 1` holds
exactly (both sides are the same missing value in the degenerate
one-record case where the lone cumulative entry is undefined). -/
theorem C3_total_return_identity (close : List ℚ) (h : close ≠ []) :
    (cumulativeReturn close).getLast?.join = (total_return close).map (fun r => r + 1) := by
  have hne : cumulativeReturn close ≠ [] := by
    intro he
    apply h
    have := cumulativeReturn_length close
    rw [he] at this
    exact List.length_eq_zero.mp this.symm
  obtain ⟨o, ho⟩ := Option.isSome_iff_exists.mp (List.getLast?_isSome.mpr hne)
  rw [total_return, ho]
  cases o with
  | none => rfl
  | some c => simp

/-- Witness for C3 at the one-record series `[1]`. -/
theorem C3_witness :
    ([(1 : ℚ)] ≠ []) ∧
    (cumulativeReturn [(1 : ℚ)]).getLast?.join = (total_return [(1 : ℚ)]).map (fun r => r + 1) :=
  ⟨by simp, C3_total_return_identity [(1 : ℚ)] (by simp)⟩

/-! ### C8 — chart endpoint routing -/

/-- C8: for a loadable data source, `/api/chart/<type>` answers the four
known chart types with status 200 and a chart reference, and every other
type with a 4xx client error carrying an error object; the handler is a
total function, so no request crashes it. -/
theorem C8_api_chart_routing (df : Frame) (t : String) :
    (t ∈ ["price", "volume", "returns", "risk"] →
      (api_chart (some df) t).1 = 200 ∧
      ∃ u, (api_chart (some df) t).2 = ChartResp.chart u) ∧
    (t ∉ ["price", "volume", "returns", "risk"] →
      400 ≤ (api_chart (some df) t).1 ∧ (api_chart (some df) t).1 < 500 ∧
      ∃ m, (api_chart (some df) t).2 = ChartResp.err m) := by
  constructor
  · intro ht
    simp only [List.mem_cons, List.not_mem_nil, or_false] at ht
    rcases ht with rfl | rfl | rfl | rfl <;> simp [api_chart]
  · intro ht
    simp only [List.mem_cons, List.not_mem_nil, or_false, not_or] at ht
    obtain ⟨h1, h2, h3, h4⟩ := ht
    simp [api_chart, h1, h2, h3, h4]

/-- Witness for C8 at an empty frame and the `price` chart type. -/
theorem C8_witness :
    ("price" ∈ ["price", "volume", "returns", "risk"]) ∧
    (api_chart (some ⟨[], [], [], [], [], [], none, none, none, none, none⟩) "price").1 = 200 ∧
    ∃ u, (api_chart (some ⟨[], [], [], [], [], [], none, none, none, none, none⟩) "price").2 =
      ChartResp.chart u :=
  ⟨by simp,
   (C8_api_chart_routing ⟨[], [], [], [], [], [], none, none, none, none, none⟩ "price").1 (by simp)⟩

/-! ### C2 — drawdown is nonpositive, max drawdown is the series minimum -/

/-- Running products of positive factors from a positive seed stay
positive. -/
theorem cumprodAux_pos (acc : ℚ) (xs : List ℚ) (ha : 0 < acc)
    (hx : ∀ x ∈ xs, 0 < x) : ∀ c ∈ cumprodAux acc xs, 0 < c := by
  induction xs generalizing acc with
  | nil => intro c hc; simp [cumprodAux] at hc
  | cons x xs ih =>
    intro c hc
    have hx0 : 0 < acc * x := mul_pos ha (hx x (List.mem_cons_self x xs))
    rcases List.mem_cons.1 hc with rfl | hc
    · exact hx0
    · exact ih (acc * x) hx0 (fun y hy => hx y (List.mem_cons_of_mem x hy)) c hc

/-- Each drawdown entry against the running maximum continued from a
positive already-seen maximum is nonpositive. -/
theorem drawdownAux_nonpos (xs : List ℚ) (m : ℚ) (hm : 0 < m) :
    ∀ d ∈ List.zipWith (fun c mm => (c - mm) / mm) xs (runningMaxAux m xs), d ≤ 0 := by
  induction xs generalizing m with
  | nil => intro d hd; simp [runningMaxAux] at hd
  | cons x xs ih =>
    intro d hd
    have hmx : 0 < max m x := lt_of_lt_of_le hm (le_max_left m x)
    rcases List.mem_cons.1 hd with rfl | hd
    · exact div_nonpos_of_nonpos_of_nonneg (sub_nonpos.mpr (le_max_right m x)) hmx.le
    · exact ih (max m x) hmx d hd

/-- C2: whenever all daily returns exceed `-1` (so the cumulative-return
series is positive), every entry of the drawdown series
`(cumulative - running_max) / running_max` is at most `0`, and the
reported maximum drawdown is exactly the minimum of the drawdown series. -/
theorem C2_drawdown_nonpos (close : List ℚ)
    (h : ∀ r ∈ risk_returns close, -1 < r) :
    (∀ d ∈ drawdownSeries close, d ≤ 0) ∧
    max_drawdown close = (drawdownSeries close).min? := by
  refine ⟨?_, rfl⟩
  have hpos : ∀ c ∈ risk_cumulative close, 0 < c := by
    apply cumprodAux_pos 1 _ one_pos
    intro y hy
    rw [List.mem_map] at hy
    obtain ⟨r, hr, rfl⟩ := hy
    have := h r hr
    linarith
  unfold drawdownSeries
  cases hc : risk_cumulative close with
  | nil => intro d hd; simp [runningMax] at hd
  | cons c cs =>
    intro d hd
    rw [runningMax] at hd
    rcases List.mem_cons.1 hd with rfl | hd
    · simp
    · have hcpos : 0 < c := hpos c (hc ▸ List.mem_cons_self c cs)
      exact drawdownAux_nonpos cs c hcpos d hd

/-- Witness for C2 at the close series `[1, 1, 3]` (daily returns
`[0, 2]`). -/
theorem C2_witness :
    (∀ r ∈ risk_returns [(1 : ℚ), 1, 3], -1 < r) ∧
    ((∀ d ∈ drawdownSeries [(1 : ℚ), 1, 3], d ≤ 0) ∧
     max_drawdown [(1 : ℚ), 1, 3] = (drawdownSeries [(1 : ℚ), 1, 3]).min?) := by
  have hr : ∀ r ∈ risk_returns [(1 : ℚ), 1, 3], -1 < r := by
    intro r hr
    norm_num [risk_returns, pctChange, pctChangeAux, dropna] at hr
    rcases hr with rfl | rfl <;> norm_num
  exact ⟨hr, C2_drawdown_nonpos [(1 : ℚ), 1, 3] hr⟩

/-! ### C4 — RSI is bounded in [0, 100] -/

/-- Every entry of the clamped gain series is nonnegative. -/
theorem gainSeries_nonneg (data : List ℚ) : ∀ x ∈ gainSeries data, 0 ≤ x := by
  intro x hx
  rw [gainSeries, List.mem_map] at hx
  obtain ⟨d, _, rfl⟩ := hx
  cases d with
  | none => exact le_refl 0
  | some v =>
    by_cases hv : 0 < v
    · simp [hv, hv.le]
    · simp [hv]

/-- Every entry of the clamped loss series is nonnegative. -/
theorem lossSeries_nonneg (data : List ℚ) : ∀ x ∈ lossSeries data, 0 ≤ x := by
  intro x hx
  rw [lossSeries, List.mem_map] at hx
  obtain ⟨d, _, rfl⟩ := hx
  cases d with
  | none => exact le_refl 0
  | some v =>
    by_cases hv : v < 0
    · simp [hv]
      linarith
    · simp [hv]

/-- A defined rolling mean of a nonnegative series is nonnegative. -/
theorem rollingMean_mem_nonneg (w : ℕ) (xs : List ℚ) (hxs : ∀ x ∈ xs, 0 ≤ x)
    (v : ℚ) (hv : some v ∈ rollingMean w xs) : 0 ≤ v := by
  rw [rollingMean, List.mem_map] at hv
  obtain ⟨t, _, heq⟩ := hv
  by_cases hw : w ≤ t + 1
  · rw [if_pos hw, Option.some.injEq] at heq
    subst heq
    apply div_nonneg _ (Nat.cast_nonneg w)
    apply List.sum_nonneg
    intro y hy
    exact hxs y (((List.drop_sublist _ _).trans (List.take_sublist _ _)).subset hy)
  · rw [if_neg hw] at heq
    exact absurd heq (Option.noConfusion)

/-- A defined `rsiVal` of a nonnegative gain and loss lies in `[0, 100]`. -/
theorem rsiVal_bounds (g l x : ℚ) (hg : 0 ≤ g) (hl : 0 ≤ l)
    (h : rsiVal g l = some x) : 0 ≤ x ∧ x ≤ 100 := by
  rw [rsiVal] at h
  by_cases hl0 : l = 0
  · rw [if_pos hl0] at h
    by_cases hg0 : g = 0
    · rw [if_pos hg0] at h
      exact absurd h (Option.noConfusion)
    · rw [if_neg hg0, Option.some.injEq] at h
      subst h
      norm_num
  · rw [if_neg hl0, Option.some.injEq] at h
    subst h
    have hlpos : 0 < l := lt_of_le_of_ne hl (Ne.symm hl0)
    have hrs : 0 ≤ g / l := div_nonneg hg hlpos.le
    have hden : (0 : ℚ) < 1 + g / l := by linarith
    have hle : 100 / (1 + g / l) ≤ 100 := by
      rw [div_le_iff₀ hden]
      nlinarith
    have hgt : 0 < 100 / (1 + g / l) := by positivity
    constructor <;> linarith

/-- C4: every defined entry of the 14-period RSI lies between `0` and
`100` inclusive, for any input close-price series. -/
theorem C4_rsi_bounded (data : List ℚ) (x : ℚ)
    (hx : some x ∈ calculate_rsi data 14) : 0 ≤ x ∧ x ≤ 100 := by
  rw [calculate_rsi] at hx
  obtain ⟨g, l, hg, hl, hfl⟩ := mem_zipWith hx
  cases g with
  | none => exact absurd hfl (by cases l <;> exact Option.noConfusion)
  | some gv =>
    cases l with
    | none => exact absurd hfl (Option.noConfusion)
    | some lv =>
      exact rsiVal_bounds gv lv x
        (rollingMean_mem_nonneg 14 (gainSeries data) (gainSeries_nonneg data) gv hg)
        (rollingMean_mem_nonneg 14 (lossSeries data) (lossSeries_nonneg data) lv hl)
        hfl

/-- Witness for C4: a 14-record series of thirteen `1`s followed by `2`,
whose RSI at the last record is defined and equals `100`. -/
theorem C4_witness :
    some (100 : ℚ) ∈ calculate_rsi (List.replicate 13 (1 : ℚ) ++ [2]) 14 ∧
    (0 ≤ (100 : ℚ) ∧ (100 : ℚ) ≤ 100) := by
  have h13 : (calculate_rsi (List.replicate 13 (1 : ℚ) ++ [2]) 14).get? 13 = some (some 100) := by
    norm_num [calculate_rsi, rollingMean, gainSeries, lossSeries, seriesDiff, diffAux,
      windowSum, rsiVal, List.replicate, List.range_succ]
  have hmem : some (100 : ℚ) ∈ calculate_rsi (List.replicate 13 (1 : ℚ) ++ [2]) 14 :=
    List.get?_mem h13
  exact ⟨hmem, C4_rsi_bounded _ _ hmem⟩

/-! ### C10 — RSI saturation at zero average loss -/

/-- C10: at any index where the trailing 14-period average loss is `0`, the
computed RSI is exactly `100` if the trailing average gain is strictly
positive (the float division saturates instead of raising), and is missing
(`NaN`) if the average gain is also `0`. -/
theorem C10_rsi_zero_loss (data : List ℚ) (t : ℕ) (g l : ℚ)
    (hg : (rollingMean 14 (gainSeries data)).get? t = some (some g))
    (hl : (rollingMean 14 (lossSeries data)).get? t = some (some l))
    (hl0 : l = 0) :
    (0 < g → (calculate_rsi data 14).get? t = some (some 100)) ∧
    (g = 0 → (calculate_rsi data 14).get? t = some none) := by
  subst hl0
  rw [calculate_rsi, get?_zipWith, hg, hl]
  constructor
  · intro hgpos
    simp [rsiVal, ne_of_gt hgpos]
  · intro hg0
    subst hg0
    simp [rsiVal]

/-- Witness for C10 at the 14-record series of thirteen `1`s followed by
`2`: the average loss at the last record is `0`, the average gain `1/14`,
and the RSI is `100`. -/
theorem C10_witness :
    (rollingMean 14 (gainSeries (List.replicate 13 (1 : ℚ) ++ [2]))).get? 13 =
      some (some (1 / 14)) ∧
    (rollingMean 14 (lossSeries (List.replicate 13 (1 : ℚ) ++ [2]))).get? 13 =
      some (some 0) ∧
    (calculate_rsi (List.replicate 13 (1 : ℚ) ++ [2]) 14).get? 13 = some (some 100) := by
  have hg : (rollingMean 14 (gainSeries (List.replicate 13 (1 : ℚ) ++ [2]))).get? 13 =
      some (some (1 / 14)) := by
    norm_num [rollingMean, gainSeries, seriesDiff, diffAux, windowSum,
      List.replicate, List.range_succ]
  have hl : (rollingMean 14 (lossSeries (List.replicate 13 (1 : ℚ) ++ [2]))).get? 13 =
      some (some 0) := by
    norm_num [rollingMean, lossSeries, seriesDiff, diffAux, windowSum,
      List.replicate, List.range_succ]
  exact ⟨hg, hl,
    (C10_rsi_zero_loss (List.replicate 13 (1 : ℚ) ++ [2]) 13 (1 / 14) 0 hg hl rfl).1
      (by norm_num)⟩

/-! ### C1 — golden/death cross classification -/

/-- C1: whenever `SMA_20` and `SMA_50` are defined at the last two records
(values `a`, `b` at the last record and `c`, `d` at the second-to-last),
the predictive classification reports the golden cross exactly when
`SMA_20` is above `SMA_50` now and was at or below it before, the death
cross exactly when it is below now and was at or above before, and
otherwise the bullish continuation exactly when `SMA_20 > SMA_50` and the
bearish continuation exactly when `SMA_20 ≤ SMA_50`. -/
theorem C1_crossover_classification (close : List ℚ) (a b c d : ℚ)
    (h20 : (rollingMean 20 close).get? (close.length - 1) = some (some a))
    (h50 : (rollingMean 50 close).get? (close.length - 1) = some (some b))
    (q20 : (rollingMean 20 close).get? (close.length - 2) = some (some c))
    (q50 : (rollingMean 50 close).get? (close.length - 2) = some (some d)) :
    (predictive_analytics close = "GOLDEN CROSS - Bullish signal" ↔ b < a ∧ c ≤ d) ∧
    (predictive_analytics close = "DEATH CROSS - Bearish signal" ↔ a < b ∧ d ≤ c) ∧
    (¬(b < a ∧ c ≤ d) → ¬(a < b ∧ d ≤ c) →
      ((predictive_analytics close = "Bullish trend continuation" ↔ b < a) ∧
       (predictive_analytics close = "Bearish trend continuation" ↔ a ≤ b))) := by
  have e20 : (rollingMean 20 close).getD (close.length - 1) none = some a := by
    rw [getD_eq_get?_getD, h20]; rfl
  have e50 : (rollingMean 50 close).getD (close.length - 1) none = some b := by
    rw [getD_eq_get?_getD, h50]; rfl
  have f20 : (rollingMean 20 close).getD (close.length - 2) none = some c := by
    rw [getD_eq_get?_getD, q20]; rfl
  have f50 : (rollingMean 50 close).getD (close.length - 2) none = some d := by
    rw [getD_eq_get?_getD, q50]; rfl
  simp only [predictive_analytics]
  rw [e20, e50, f20, f50]
  by_cases hba : b < a <;> by_cases hcd : c ≤ d <;>
    by_cases hab : a < b <;> by_cases hdc : d ≤ c <;>
    simp [oGT, oLT, oLE, oGE, hba, hcd, hab, hdc] <;>
    linarith

/-- Witness for C1 at the constant 51-record series of `1`s, where both
moving averages equal `1` at the last two records and the classification
is the bearish continuation. -/
theorem C1_witness :
    (rollingMean 20 (List.replicate 51 (1 : ℚ))).get? 50 = some (some 1) ∧
    (rollingMean 50 (List.replicate 51 (1 : ℚ))).get? 50 = some (some 1) ∧
    (rollingMean 20 (List.replicate 51 (1 : ℚ))).get? 49 = some (some 1) ∧
    (rollingMean 50 (List.replicate 51 (1 : ℚ))).get? 49 = some (some 1) ∧
    ((predictive_analytics (List.replicate 51 (1 : ℚ)) = "GOLDEN CROSS - Bullish signal" ↔
        (1 : ℚ) < 1 ∧ (1 : ℚ) ≤ 1) ∧
     (predictive_analytics (List.replicate 51 (1 : ℚ)) = "DEATH CROSS - Bearish signal" ↔
        (1 : ℚ) < 1 ∧ (1 : ℚ) ≤ 1) ∧
     (¬((1 : ℚ) < 1 ∧ (1 : ℚ) ≤ 1) → ¬((1 : ℚ) < 1 ∧ (1 : ℚ) ≤ 1) →
      ((predictive_analytics (List.replicate 51 (1 : ℚ)) = "Bullish trend continuation" ↔
          (1 : ℚ) < 1) ∧
       (predictive_analytics (List.replicate 51 (1 : ℚ)) = "Bearish trend continuation" ↔
          (1 : ℚ) ≤ 1)))) := by
  have h1 : (rollingMean 20 (List.replicate 51 (1 : ℚ))).get? 50 = some (some 1) := by
    norm_num [rollingMean, windowSum, List.getElem?_map, List.getElem?_range,
      List.take_replicate, List.drop_replicate, List.sum_replicate, smul_eq_mul]
  have h2 : (rollingMean 50 (List.replicate 51 (1 : ℚ))).get? 50 = some (some 1) := by
    norm_num [rollingMean, windowSum, List.getElem?_map, List.getElem?_range,
      List.take_replicate, List.drop_replicate, List.sum_replicate, smul_eq_mul]
  have h3 : (rollingMean 20 (List.replicate 51 (1 : ℚ))).get? 49 = some (some 1) := by
    norm_num [rollingMean, windowSum, List.getElem?_map, List.getElem?_range,
      List.take_replicate, List.drop_replicate, List.sum_replicate, smul_eq_mul]
  have h4 : (rollingMean 50 (List.replicate 51 (1 : ℚ))).get? 49 = some (some 1) := by
    norm_num [rollingMean, windowSum, List.getElem?_map, List.getElem?_range,
      List.take_replicate, List.drop_replicate, List.sum_replicate, smul_eq_mul]
  exact ⟨h1, h2, h3, h4,
    C1_crossover_classification (List.replicate 51 (1 : ℚ)) 1 1 1 1 h1 h2 h3 h4⟩

/-! ### C5 — aggregator side effects and order-insensitivity -/

/-- Counterexample to C5 as stated: `performance_analytics` is not
side-effect-free — on a one-record frame with no derived columns it
assigns the `Daily_Return` (and `Cumulative_Return`) columns in place, so
the frame it returns differs from its input. -/
theorem C5_counterexample :
    perfStep ⟨[1], [1], [1], [1], [1], [1], none, none, none, none, none⟩ ≠
      ⟨[1], [1], [1], [1], [1], [1], none, none, none, none, none⟩ := by
  intro h
  have := congrArg Frame.Daily_Return h
  simp [perfStep, performance_analytics] at this

/-- C5 amended: each aggregator of `app.py` preserves the six OHLCV
columns (it adds derived columns at most), and every aggregator's report
is unchanged by first running any other aggregator — the reports are
functions of the OHLCV columns alone, so the aggregators are
order-insensitive even though the frame itself is mutated. -/
theorem C5_order_insensitive (df : Frame) (s : Frame → Frame)
    (hs : s ∈ [descStep, perfStep, techStep, riskStep]) :
    baseOf (s df) = baseOf df ∧
    (descriptive_analytics (s df)).2 = (descriptive_analytics df).2 ∧
    (performance_analytics (s df)).2 = (performance_analytics df).2 ∧
    (technical_analytics (s df)).2 = (technical_analytics df).2 ∧
    (risk_analytics (s df)).2 = (risk_analytics df).2 := by
  simp only [List.mem_cons, List.not_mem_nil, or_false] at hs
  rcases hs with rfl | rfl | rfl | rfl <;> exact ⟨rfl, rfl, rfl, rfl, rfl⟩

/-- Witness for C5 amended, running `performance_analytics` first on a
one-record frame. -/
theorem C5_witness :
    (perfStep ∈ [descStep, perfStep, techStep, riskStep]) ∧
    (baseOf (perfStep ⟨[1], [1], [1], [1], [1], [1], none, none, none, none, none⟩) =
       baseOf ⟨[1], [1], [1], [1], [1], [1], none, none, none, none, none⟩ ∧
     (descriptive_analytics
        (perfStep ⟨[1], [1], [1], [1], [1], [1], none, none, none, none, none⟩)).2 =
       (descriptive_analytics ⟨[1], [1], [1], [1], [1], [1], none, none, none, none, none⟩).2 ∧
     (performance_analytics
        (perfStep ⟨[1], [1], [1], [1], [1], [1], none, none, none, none, none⟩)).2 =
       (performance_analytics ⟨[1], [1], [1], [1], [1], [1], none, none, none, none, none⟩).2 ∧
     (technical_analytics
        (perfStep ⟨[1], [1], [1], [1], [1], [1], none, none, none, none, none⟩)).2 =
       (technical_analytics ⟨[1], [1], [1], [1], [1], [1], none, none, none, none, none⟩).2 ∧
     (risk_analytics
        (perfStep ⟨[1], [1], [1], [1], [1], [1], none, none, none, none, none⟩)).2 =
       (risk_analytics ⟨[1], [1], [1], [1], [1], [1], none, none, none, none, none⟩).2) :=
  ⟨List.mem_cons_of_mem _ (List.mem_cons_self _ _),
   C5_order_insensitive ⟨[1], [1], [1], [1], [1], [1], none, none, none, none, none⟩ perfStep
     (List.mem_cons_of_mem _ (List.mem_cons_self _ _))⟩

/-! ### C6 — Sharpe ratio and the risk-free rate -/

/-- Counterexample to C6 as stated: the risk-free rate is not configurable
— `risk_analytics` hardcodes `risk_free_rate = 0.02`, so with the
`RISK_FREE_RATE` configuration set to `0` the reported Sharpe ratio on the
close series `[1, 1, 3]` differs from the claimed formula at the
configured rate. -/
theorem C6_counterexample :
    risk_sharpe [1, 1, 3] ≠ sharpe_of 0 (risk_returns [1, 1, 3]) := by
  have hr : risk_returns [(1 : ℚ), 1, 3] = [0, 2] := by
    norm_num [risk_returns, pctChange, pctChangeAux, dropna, List.filterMap_cons]
  rw [risk_sharpe, hr]
  have hm1 : seriesMean (excess_returns (2 / 100) [0, 2]) = some (12599 / 12600) := by
    norm_num [seriesMean, excess_returns]
    intro h
    simp at h
  have hm2 : seriesMean (excess_returns 0 [0, 2]) = some 1 := by
    norm_num [seriesMean, excess_returns]
    intro h
    simp at h
  have hsd : seriesStd [(0 : ℚ), 2] = some (Real.sqrt 2) := by
    rw [seriesStd]
    norm_num [varSample]
  simp only [sharpe_of, hm1, hm2, hsd]
  intro h
  rw [Option.some.injEq] at h
  have h252 : (0 : ℝ) < Real.sqrt 252 := Real.sqrt_pos.mpr (by norm_num)
  have hs2 : (0 : ℝ) < Real.sqrt 2 := Real.sqrt_pos.mpr (by norm_num)
  rw [div_eq_div_iff hs2.ne' hs2.ne'] at h
  have h1 := mul_right_cancel₀ hs2.ne' h
  have h2 := mul_left_cancel₀ h252.ne' h1
  norm_num at h2

/-- C6 amended: the risk aggregator computes the Sharpe ratio as
`√252 × mean(dailyReturn − riskFreeRate/252) / std(dailyReturn)` with the
risk-free rate fixed at `0.02`; the `RISK_FREE_RATE` configuration
parameter of `config.py` (default `0.02`) exists but is never consulted by
the aggregator, so the rate is not configurable. -/
theorem C6_sharpe_hardcoded_rate (close : List ℚ) (m : ℚ) (s : ℝ)
    (hm : seriesMean (excess_returns (2 / 100) (risk_returns close)) = some m)
    (hs : seriesStd (risk_returns close) = some s) :
    risk_sharpe close = some (Real.sqrt 252 * (m : ℝ) / s) := by
  rw [risk_sharpe]
  simp only [sharpe_of, hm, hs]

/-- Witness for C6 amended at the close series `[1, 1, 3]`. -/
theorem C6_witness :
    seriesMean (excess_returns (2 / 100) (risk_returns [(1 : ℚ), 1, 3])) =
      some (12599 / 12600) ∧
    seriesStd (risk_returns [(1 : ℚ), 1, 3]) = some (Real.sqrt 2) ∧
    risk_sharpe [(1 : ℚ), 1, 3] =
      some (Real.sqrt 252 * ((12599 / 12600 : ℚ) : ℝ) / Real.sqrt 2) := by
  have hr : risk_returns [(1 : ℚ), 1, 3] = [0, 2] := by
    norm_num [risk_returns, pctChange, pctChangeAux, dropna, List.filterMap_cons]
  have hm : seriesMean (excess_returns (2 / 100) (risk_returns [(1 : ℚ), 1, 3])) =
      some (12599 / 12600) := by
    rw [hr]
    norm_num [seriesMean, excess_returns]
    intro h
    simp at h
  have hs : seriesStd (risk_returns [(1 : ℚ), 1, 3]) = some (Real.sqrt 2) := by
    rw [hr, seriesStd]
    norm_num [varSample]
  exact ⟨hm, hs, C6_sharpe_hardcoded_rate [(1 : ℚ), 1, 3] (12599 / 12600) (Real.sqrt 2) hm hs⟩

/-! ### C7 — loader failure and malformed-row tolerance -/

/-- The maximum of a nonempty list of `7`s is `7`. -/
theorem foldr_max_of_all_seven (ns : List ℕ) (h : ∀ n ∈ ns, n = 7) (hne : ns ≠ []) :
    ns.foldr max 0 = 7 := by
  induction ns with
  | nil => exact absurd rfl hne
  | cons n ns ih =>
    have hn : n = 7 := h n (List.mem_cons_self n ns)
    cases ns with
    | nil => simp [hn]
    | cons k ns' =>
      rw [List.foldr_cons, ih (fun x hx => h x (List.mem_cons_of_mem n hx)) (by simp), hn]
      simp

/-- A traversal whose steps all succeed succeeds, keeps one output per
input, and computes each output from its input. -/
theorem mapMOption_of_forall {α β : Type} {f : α → Option β} :
    ∀ (xs : List α), (∀ x ∈ xs, f x ≠ none) →
      ∃ ys, mapMOption f xs = some ys ∧ ys.length = xs.length ∧
        ∀ i x, xs.get? i = some x → ys.get? i = f x := by
  intro xs
  induction xs with
  | nil =>
    intro _
    exact ⟨[], rfl, rfl, by intro i x h; simp at h⟩
  | cons x xs ih =>
    intro h
    obtain ⟨y, hy⟩ := Option.ne_none_iff_exists'.mp (h x (List.mem_cons_self x xs))
    obtain ⟨ys, hys, hlen, hpt⟩ := ih (fun z hz => h z (List.mem_cons_of_mem x hz))
    refine ⟨y :: ys, ?_, by simp [hlen], ?_⟩
    · rw [mapMOption, hy, hys]
    · intro i z hz
      cases i with
      | zero =>
        rw [List.get?] at hz
        rw [Option.some.injEq] at hz
        subst hz
        simp [hy]
      | succ i => exact hpt i z hz

/-- Counterexample to C7 as stated: a readable, nonempty source consisting
of one row whose date field does not parse makes the load fail —
`pd.to_datetime` raises on the malformed date — so failure is not
equivalent to the source being unreadable or empty. -/
theorem C7_counterexample :
    (some ["garbage,1,2,3,4,5,6"] : Option (List String)) ≠ none ∧
    ["garbage,1,2,3,4,5,6"] ≠ ([] : List String) ∧
    load_data (some ["garbage,1,2,3,4,5,6"]) = none := by
  refine ⟨by simp, by simp, ?_⟩
  decide

/-- C7 amended: the loader fails when the source is unreadable or empty;
it can also fail on a readable source, namely when a row's date field does
not parse (or the rows do not split into exactly seven fields).  On a
readable source whose rows all have seven fields and parseable dates, the
load always succeeds, keeps every row, and parses each row's numeric
fields with coercion — malformed numeric fields become missing values and
never cause a failure. -/
theorem C7_loader (lines : List String)
    (hne : lines ≠ [])
    (h7 : ∀ l ∈ lines, (splitOnChar ',' l.toList).length = 7)
    (hd : ∀ l ∈ lines, parseDate ((splitOnChar ',' l.toList).getD 0 []) ≠ none) :
    load_data none = none ∧
    load_data (some []) = none ∧
    ∃ rows, load_data (some lines) = some rows ∧ rows.length = lines.length ∧
      ∀ i l, lines.get? i = some l →
        rows.get? i = parseFields (splitOnChar ',' l.toList) := by
  refine ⟨rfl, by simp [load_data], ?_⟩
  have hguard : ((lines.map (fun l => splitOnChar ',' l.toList)).map List.length).foldr max 0 = 7 := by
    apply foldr_max_of_all_seven
    · intro n hn
      rw [List.map_map, List.mem_map] at hn
      obtain ⟨l, hl, rfl⟩ := hn
      exact h7 l hl
    · simp [hne]
  have hstep : ∀ fs ∈ lines.map (fun l => splitOnChar ',' l.toList), parseFields fs ≠ none := by
    intro fs hfs
    rw [List.mem_map] at hfs
    obtain ⟨l, hl, rfl⟩ := hfs
    rw [parseFields]
    intro hcon
    rw [Option.map_eq_none'] at hcon
    exact hd l hl hcon
  obtain ⟨rows, hrows, hlen, hpt⟩ :=
    mapMOption_of_forall (lines.map (fun l => splitOnChar ',' l.toList)) hstep
  refine ⟨rows, ?_, by simp [hlen], ?_⟩
  · simp only [load_data, Option.some_bind]
    rw [if_pos hguard]
    exact hrows
  · intro i l hl
    apply hpt
    rw [List.get?_eq_getElem?, List.getElem?_map]
    rw [List.get?_eq_getElem?] at hl
    rw [hl]
    rfl

/-- Witness for C7 at a one-row source with a valid date and a malformed
numeric field: the load succeeds, the row is kept, and its unparseable
`Open` field is missing.  The trailing conjuncts pin the parsers to
`pd.to_datetime` and `pd.to_numeric`: the calendar-invalid `2024-02-31`
(on which `to_datetime` raises) does not parse, while the scientific cell
`1e5` (which `to_numeric` accepts) parses to `100000`. -/
theorem C7_witness :
    (["2024-01-02,abc,2,3,4,5,6"] ≠ ([] : List String)) ∧
    (∀ l ∈ ["2024-01-02,abc,2,3,4,5,6"], (splitOnChar ',' l.toList).length = 7) ∧
    (∀ l ∈ ["2024-01-02,abc,2,3,4,5,6"],
      parseDate ((splitOnChar ',' l.toList).getD 0 []) ≠ none) ∧
    (load_data none = none ∧ load_data (some []) = none ∧
     ∃ rows, load_data (some ["2024-01-02,abc,2,3,4,5,6"]) = some rows ∧
       rows.length = ["2024-01-02,abc,2,3,4,5,6"].length ∧
       ∀ i l, ["2024-01-02,abc,2,3,4,5,6"].get? i = some l →
         rows.get? i = parseFields (splitOnChar ',' l.toList)) ∧
    (load_data (some ["2024-01-02,abc,2,3,4,5,6"])).map (List.map Row.Open) = some [none] ∧
    parseDate "2024-02-31".toList = none ∧
    parseNumeric "1e5".toList = some 100000 :=
  ⟨by simp, by decide, by decide,
   C7_loader ["2024-01-02,abc,2,3,4,5,6"] (by simp) (by decide) (by decide),
   by decide, by decide,
   by
     simp [parseNumeric, splitSign, splitExp, parseMantissa, parseExp, charsToNat?,
       digitsVal, splitOnChar, List.findIdx?, Char.isWhitespace, Char.isDigit]
     try norm_num⟩

/-! ### C9 — cumulative return as a running product -/

/-- After the missing head, the cumulative product at index `s` is the
accumulator times the product of `1 + r` over the daily returns seen so
far. -/
theorem cumprodSkipAux_pctChangeAux_get? :
    ∀ (rest : List ℚ) (prev acc : ℚ) (s : ℕ), s < rest.length →
      (cumprodSkipAux acc ((pctChangeAux prev rest).map (Option.map (fun r => 1 + r)))).get? s =
        some (some (acc *
          ((((pctChangeAux prev rest).take (s + 1)).filterMap id).map (fun r => 1 + r)).prod)) := by
  intro rest
  induction rest with
  | nil => intro prev acc s h; simp at h
  | cons x rest ih =>
    intro prev acc s h
    cases s with
    | zero =>
      simp [pctChangeAux, cumprodSkipAux, List.filterMap_cons]
    | succ s =>
      have hs : s < rest.length := by simpa using h
      simp only [pctChangeAux, List.map_cons, Option.map_some', cumprodSkipAux, List.get?]
      rw [ih x (acc * (1 + (x / prev - 1))) s hs]
      simp [List.filterMap_cons, mul_assoc]

/-- The partial products of `1 + dailyReturn` telescope to a price ratio
when no close is zero. -/
theorem pctChangeAux_ratio_prod :
    ∀ (rest : List ℚ) (prev : ℚ), prev ≠ 0 → (∀ c ∈ rest, c ≠ 0) →
      ∀ s, s < rest.length →
        ((((pctChangeAux prev rest).take (s + 1)).filterMap id).map (fun r => 1 + r)).prod =
          rest.getD s 0 / prev := by
  intro rest
  induction rest with
  | nil => intro prev _ _ s h; simp at h
  | cons x rest ih =>
    intro prev hprev hz s h
    have hx : x ≠ 0 := hz x (List.mem_cons_self x rest)
    cases s with
    | zero =>
      simp [pctChangeAux, List.filterMap_cons]
    | succ s =>
      have hs : s < rest.length := by simpa using h
      simp only [pctChangeAux, List.take, List.filterMap_cons, id_eq, List.map_cons,
        List.prod_cons]
      rw [ih x hx (fun c hc => hz c (List.mem_cons_of_mem x hc)) s hs]
      have hd : rest.getD s 0 / x = rest.getD s 0 * x⁻¹ := div_eq_mul_inv _ _
      field_simp
      ring

/-- Counterexample to C9 as stated: on the close series `[1, 2]` the
cumulative-return entry at index `0` is missing (the first daily return is
`NaN`, and pandas' skipping `cumprod` keeps the entry missing), not `1` as
the claimed seeding asserts. -/
theorem C9_counterexample :
    (cumulativeReturn [(1 : ℚ), 2]).get? 0 = some none ∧
    (some none : Option (Option ℚ)) ≠ some (some (1 : ℚ)) := by
  exact ⟨rfl, by simp⟩

/-- C9 amended: the cumulative-return entry at index `0` is missing rather
than `1`; for every `t ≥ 1`, the entry at `t` equals the running product
of `1 + dailyReturn[s]` over `s = 1 .. t`, which (for nonzero closes)
telescopes to `close[t] / close[0]`. -/
theorem C9_cumulative_running_product (close : List ℚ) (h0 : close ≠ [])
    (hz : ∀ c ∈ close, c ≠ 0) :
    (cumulativeReturn close).get? 0 = some none ∧
    ∀ t, 0 < t → t < close.length →
      (cumulativeReturn close).get? t =
        some (some (((((pctChange close).take (t + 1)).filterMap id).map
          (fun r => 1 + r)).prod)) ∧
      ((((pctChange close).take (t + 1)).filterMap id).map (fun r => 1 + r)).prod =
        close.getD t 0 / close.getD 0 0 := by
  obtain ⟨c0, rest, rfl⟩ : ∃ c0 rest, close = c0 :: rest := by
    cases close with
    | nil => exact absurd rfl h0
    | cons c0 rest => exact ⟨c0, rest, rfl⟩
  have hc0 : c0 ≠ 0 := hz c0 (List.mem_cons_self c0 rest)
  have hrest : ∀ c ∈ rest, c ≠ 0 := fun c hc => hz c (List.mem_cons_of_mem c0 hc)
  refine ⟨rfl, ?_⟩
  intro t ht hlt
  obtain ⟨s, rfl⟩ : ∃ s, t = s + 1 := ⟨t - 1, by omega⟩
  have hs : s < rest.length := by simpa using hlt
  constructor
  · have hmain := cumprodSkipAux_pctChangeAux_get? rest c0 1 s hs
    simp only [cumulativeReturn, pctChange, cumprodSkip, List.map_cons, Option.map_none',
      cumprodSkipAux, List.get?, List.take, List.filterMap_cons]
    rw [hmain]
    simp
  · have hratio := pctChangeAux_ratio_prod rest c0 hc0 hrest s hs
    simp only [pctChange, List.take, List.filterMap_cons, id_eq]
    rw [hratio]
    simp [List.getD]

/-- Witness for C9 amended at the close series `[1, 2]`. -/
theorem C9_witness :
    ([(1 : ℚ), 2] ≠ []) ∧ (∀ c ∈ [(1 : ℚ), 2], c ≠ 0) ∧
    ((cumulativeReturn [(1 : ℚ), 2]).get? 0 = some none ∧
     ∀ t, 0 < t → t < ([(1 : ℚ), 2] : List ℚ).length →
       (cumulativeReturn [(1 : ℚ), 2]).get? t =
         some (some (((((pctChange [(1 : ℚ), 2]).take (t + 1)).filterMap id).map
           (fun r => 1 + r)).prod)) ∧
       ((((pctChange [(1 : ℚ), 2]).take (t + 1)).filterMap id).map (fun r => 1 + r)).prod =
         ([(1 : ℚ), 2] : List ℚ).getD t 0 / ([(1 : ℚ), 2] : List ℚ).getD 0 0) := by
  have hz : ∀ c ∈ [(1 : ℚ), 2], c ≠ 0 := by
    intro c hc
    rcases List.mem_cons.1 hc with rfl | hc
    · norm_num
    · rcases List.mem_cons.1 hc with rfl | hc
      · norm_num
      · simp at hc
  exact ⟨by simp, hz, C9_cumulative_running_product [(1 : ℚ), 2] (by simp) hz⟩
